import Mathlib

/-!
Verification development for the tileforge repository (an offline map-tile
downloader/cache/server written in JavaScript).

The development shallowly embeds the three core components:

* the tile coordinate calculator (src/core/TileCalculator.js):
  latLngToTile, getTileBounds, getTileList, calculateTileCount and the
  validation predicates;
* the tile store (src/core/TileDatabase.js): the SQLite-backed tile table
  together with the in-memory LRU cache (getTile, hasTile, saveTile,
  deleteTilesForJob) and the job registry rows;
* the download scheduler (src/core/TileDownloader.js): queueTile,
  the per-job counters, completeJob, cancelJob, getJobStatus and the
  rate-limit gate, plus the TileForge facade operations download and
  extendJob (src/TileForge.js).

Modelling conventions:

* JS numbers are modelled as exact rationals (coordinates) or integers
  (tile indices, counters, timestamps).  JS Math.floor is Int.floor and
  JS Math.round is round (both round half towards positive infinity).
* The latitude-to-tile transform computes
  (1 - Math.log(Math.tan(latRad) + 1/Math.cos(latRad)) / Math.PI) / 2,
  a transcendental (floating-point) quantity; it is abstracted as an
  explicit function parameter named merc throughout.  No theorem below
  depends on its actual values except through explicitly stated bounds.
* The JS Map used for the LRU cache is modelled as an association list in
  insertion order: Map.prototype.set on a fresh key appends, set on an
  existing key updates the value in place (JS Maps keep the original
  insertion position), and the "first" key is the list head.
* Cache keys are built by getCacheKey as the string source/z/x/y; they are
  modelled as a 4-field structure.  The cache sweep in deleteTilesForJob
  matches keys by key.startsWith(source + "/"), which coincides with
  comparing the source component for the slash-free source identifiers this
  repository defines (arcgis, google, esri-world-imagery).
-/

namespace TileForge

/-- Geographic bounds record {north, south, east, west} in degrees. -/
structure GeoBounds where
  north : ℚ
  south : ℚ
  east : ℚ
  west : ℚ
deriving DecidableEq

/-- A tile coordinate {x, y, z} as produced by getTileList. -/
structure Tile where
  x : ℤ
  y : ℤ
  z : ℕ
deriving DecidableEq

/-- The x component of latLngToTile:
x = Math.floor((lng + 180) / 360 * Math.pow(2, zoom)).
It depends only on the longitude. -/
def latLngToTileX (lng : ℚ) (zoom : ℕ) : ℤ :=
  Int.floor ((lng + 180) / 360 * 2 ^ zoom)

/-- The y component of latLngToTile:
y = Math.floor((1 - Math.log(Math.tan(latRad) + 1 / Math.cos(latRad)) / Math.PI) / 2 * n).
The parenthesized normalized-Mercator value is transcendental, so it is
abstracted as the function parameter merc; the floor and the scaling by
2 ^ zoom are kept concrete.  It depends only on the latitude. -/
def latLngToTileY (merc : ℚ → ℚ) (lat : ℚ) (zoom : ℕ) : ℤ :=
  Int.floor (merc lat * 2 ^ zoom)

/-- Result record of getTileBounds: {minX, maxX, minY, maxY, z}. -/
structure TileRange where
  minX : ℤ
  maxX : ℤ
  minY : ℤ
  maxY : ℤ
  z : ℕ
deriving DecidableEq

/-- getTileBounds(bounds, zoom): tile indices of the north-west and
south-east corners, combined with element-wise min/max. -/
def getTileBounds (merc : ℚ → ℚ) (bounds : GeoBounds) (zoom : ℕ) : TileRange :=
  let nwX := latLngToTileX bounds.west zoom
  let nwY := latLngToTileY merc bounds.north zoom
  let seX := latLngToTileX bounds.east zoom
  let seY := latLngToTileY merc bounds.south zoom
  ⟨min nwX seX, max nwX seX, min nwY seY, max nwY seY, zoom⟩

/-- The integer loop for (v = a; v <= b; v++), as a list of the visited
values (empty when b < a). -/
def intRange (a b : ℤ) : List ℤ :=
  (List.range (b + 1 - a).toNat).map (fun (i : ℕ) => a + (i : ℤ))

/-- The zoom loop for (z = minZoom; z <= maxZoom; z++), as a list of the
visited zoom levels (empty when maxZoom < minZoom). -/
def zoomRange (minZoom maxZoom : ℕ) : List ℕ :=
  List.range' minZoom (maxZoom + 1 - minZoom)

/-- getTileList(bounds, minZoom, maxZoom): per zoom level, the full
cartesian product of the x span and the y span of the zoom's tile range,
pushed in increasing z, then x, then y order. -/
def getTileList (merc : ℚ → ℚ) (bounds : GeoBounds) (minZoom maxZoom : ℕ) :
    List Tile :=
  (zoomRange minZoom maxZoom).flatMap fun z =>
    (intRange (getTileBounds merc bounds z).minX (getTileBounds merc bounds z).maxX).flatMap
      fun x =>
        (intRange (getTileBounds merc bounds z).minY (getTileBounds merc bounds z).maxY).map
          fun y => ⟨x, y, z⟩

/-- calculateTileCount(bounds, minZoom, maxZoom): per zoom level,
width * height of the tile range, summed (closed form, no enumeration). -/
def calculateTileCount (merc : ℚ → ℚ) (bounds : GeoBounds)
    (minZoom maxZoom : ℕ) : ℤ :=
  ((zoomRange minZoom maxZoom).map fun z =>
    ((getTileBounds merc bounds z).maxX - (getTileBounds merc bounds z).minX + 1) *
      ((getTileBounds merc bounds z).maxY - (getTileBounds merc bounds z).minY + 1)).sum

/-- The Web Mercator latitude limit literal 85.051129 used by
isValidBounds. -/
def webMercatorLatLimit : ℚ := 85051129 / 1000000

/-- isValidBounds(bounds): latitudes within plus/minus 85.051129,
longitudes within plus/minus 180, and north strictly greater than south.
The JS dynamic field/type checks are absorbed by the typed embedding. -/
def isValidBounds (b : GeoBounds) : Bool :=
  if b.north < -webMercatorLatLimit ∨ webMercatorLatLimit < b.north then false
  else if b.south < -webMercatorLatLimit ∨ webMercatorLatLimit < b.south then false
  else if b.east < -180 ∨ (180 : ℚ) < b.east then false
  else if b.west < -180 ∨ (180 : ℚ) < b.west then false
  else if b.north ≤ b.south then false
  else true

/-- isValidZoomRange(minZoom, maxZoom): both zooms in [0, 22] and
minZoom <= maxZoom.  Zooms are modelled as naturals, which absorbs the
JS minZoom < 0 and maxZoom < 0 checks. -/
def isValidZoomRange (minZoom maxZoom : ℕ) : Bool :=
  if 22 < minZoom then false
  else if 22 < maxZoom then false
  else if maxZoom < minZoom then false
  else true

/-- isValidTile(x, y, z): z in [0, 22] (the negative half absorbed by ℕ)
and x, y within [0, 2^z - 1]. -/
def isValidTile (x y : ℤ) (z : ℕ) : Bool :=
  if 22 < z then false
  else
    let maxTile : ℤ := 2 ^ z - 1
    decide (0 ≤ x) && decide (x ≤ maxTile) && decide (0 ≤ y) && decide (y ≤ maxTile)

/-- A concrete stand-in for the abstract normalized-Mercator function,
used to instantiate counterexamples and witnesses; the x components of the
tile ranges involved never depend on it. -/
def mercHalf : ℚ → ℚ := fun _ => 1 / 2

/-! Tile store: src/core/TileDatabase.js. -/

/-- Bytes of a tile image (a JS Buffer), modelled as a list of byte
values.  A Buffer is always truthy in JS (even when empty), so the
row && row.data guard in getTile never rejects a found row. -/
abbrev Bytes := List ℕ

/-- A row of the tiles table: PRIMARY KEY (z, x, y, source) plus the
timestamp and data columns. -/
structure TileRow where
  z : ℤ
  x : ℤ
  y : ℤ
  source : String
  timestamp : ℕ
  data : Bytes
deriving DecidableEq

/-- The cache key built by getCacheKey(z, x, y, source): the string
source/z/x/y, modelled structurally (see the header note on slash-free
source identifiers). -/
structure CacheKey where
  source : String
  z : ℤ
  x : ℤ
  y : ℤ
deriving DecidableEq

def getCacheKey (z x y : ℤ) (source : String) : CacheKey := ⟨source, z, x, y⟩

/-- The in-memory JS Map, as an association list in insertion order
(head = oldest insertion, last = newest). -/
abbrev Cache := List (CacheKey × Bytes)

/-- Map.prototype.has. -/
def cacheHas (c : Cache) (k : CacheKey) : Bool :=
  c.any fun e => decide (e.1 = k)

/-- Map.prototype.get (undefined modelled as none). -/
def cacheGet (c : Cache) (k : CacheKey) : Option Bytes :=
  (c.find? fun e => decide (e.1 = k)).map Prod.snd

/-- Map.prototype.set: update the value in place when the key is present
(JS Maps keep the original insertion position), append otherwise. -/
def cacheSet (c : Cache) (k : CacheKey) (v : Bytes) : Cache :=
  match c with
  | [] => [(k, v)]
  | e :: rest => if e.1 = k then (k, v) :: rest else e :: cacheSet rest k v

/-- Map.prototype.delete. -/
def cacheDelete (c : Cache) (k : CacheKey) : Cache :=
  c.filter fun e => decide (¬e.1 = k)

/-- manageCacheSize(): delete the first (oldest) entry when
cache.size >= maxCacheSize. -/
def manageCacheSize (c : Cache) (maxCacheSize : ℕ) : Cache :=
  if maxCacheSize ≤ c.length then c.tail else c

/-- The TileDatabase state: the persistent tiles table and the in-memory
cache with its capacity. -/
structure TileDB where
  store : List TileRow
  cache : Cache
  maxCacheSize : ℕ
deriving DecidableEq

/-- The WHERE clause z = ? AND x = ? AND y = ? AND source = ? shared by the
getTile and hasTile prepared statements. -/
def rowKeyEq (r : TileRow) (z x y : ℤ) (source : String) : Bool :=
  decide (r.z = z) && decide (r.x = x) && decide (r.y = y) &&
    decide (r.source = source)

/-- A single-row SELECT by primary key. -/
def storeFind (store : List TileRow) (z x y : ℤ) (source : String) :
    Option TileRow :=
  store.find? fun r => rowKeyEq r z x y source

/-- INSERT OR REPLACE INTO tiles: atomic upsert by primary key. -/
def storeUpsert (store : List TileRow) (row : TileRow) : List TileRow :=
  if store.any fun r => rowKeyEq r row.z row.x row.y row.source then
    store.map fun r =>
      if rowKeyEq r row.z row.x row.y row.source then row else r
  else store ++ [row]

/-- getTile(z, x, y, source): check the cache first (a hit promotes the
entry to most recently used via delete + set); on a miss query the
backend (a hit runs manageCacheSize and inserts into the cache); returns
the bytes and the updated database state. -/
def getTile (db : TileDB) (z x y : ℤ) (source : String) :
    Option Bytes × TileDB :=
  match cacheGet db.cache (getCacheKey z x y source) with
  | some data =>
      (some data,
        { db with
          cache := cacheSet (cacheDelete db.cache (getCacheKey z x y source))
            (getCacheKey z x y source) data })
  | none =>
      match storeFind db.store z x y source with
      | some row =>
          (some row.data,
            { db with
              cache := cacheSet (manageCacheSize db.cache db.maxCacheSize)
                (getCacheKey z x y source) row.data })
      | none => (none, db)

/-- hasTile(z, x, y, source): cache membership first, then an existence
query on the backend; performs no state update. -/
def hasTile (db : TileDB) (z x y : ℤ) (source : String) : Bool :=
  cacheHas db.cache (getCacheKey z x y source) ||
    (storeFind db.store z x y source).isSome

/-- saveTile(z, x, y, source, data): INSERT OR REPLACE into the backend,
then manageCacheSize and cache.set.  The Date.now() timestamp is passed
explicitly. -/
def saveTile (db : TileDB) (z x y : ℤ) (source : String) (data : Bytes)
    (timestamp : ℕ) : TileDB :=
  { db with
    store := storeUpsert db.store ⟨z, x, y, source, timestamp, data⟩,
    cache := cacheSet (manageCacheSize db.cache db.maxCacheSize)
      (getCacheKey z x y source) data }

/-- The WHERE clause of the deleteTilesByJob prepared statement:
source = ? AND z >= ? AND z <= ? AND x >= ? AND x <= ? AND y >= ? AND y <= ?. -/
def rowMatchesJob (source : String) (z1 z2 x1 x2 y1 y2 : ℤ) (r : TileRow) :
    Bool :=
  decide (r.source = source) && decide (z1 ≤ r.z) && decide (r.z ≤ z2) &&
    decide (x1 ≤ r.x) && decide (r.x ≤ x2) &&
    decide (y1 ≤ r.y) && decide (r.y ≤ y2)

/-- The deleteTilesByJob prepared statement: bulk DELETE over the numeric
ranges, returning the new table and result.changes. -/
def deleteTilesByJob (store : List TileRow) (source : String)
    (z1 z2 x1 x2 y1 y2 : ℤ) : List TileRow × ℕ :=
  (store.filter fun r => !rowMatchesJob source z1 z2 x1 x2 y1 y2 r,
    (store.filter fun r => rowMatchesJob source z1 z2 x1 x2 y1 y2 r).length)

/-- The cache sweep at the end of deleteTilesForJob: drop every cache key
of the given source (the code tests key.startsWith(source + "/")). -/
def clearCacheForSource (c : Cache) (source : String) : Cache :=
  c.filter fun e => !decide (e.1.source = source)

/-- Every file of this package is an ES module (import/export syntax
throughout, no createRequire shim), so the CommonJS global require is not
defined at module scope. -/
def requireIsDefined : Bool := false

/-- The deletion logic of deleteTilesForJob behind its require line
(lines 259-278): for each zoom in the range, run deleteTilesByJob over
that zoom's tile rectangle (the rects argument abstracts
getTileBounds(bounds, z)) totalling the changes, then sweep the cache for
the source.  Returns the new state and the total. -/
def deleteTilesForJobBody (db : TileDB) (source : String)
    (rects : ℕ → TileRange) (minZoom maxZoom : ℕ) : TileDB × ℕ :=
  let result := (zoomRange minZoom maxZoom).foldl
    (fun (acc : List TileRow × ℕ) (z : ℕ) =>
      let step := deleteTilesByJob acc.1 source (z : ℤ) (z : ℤ)
        (rects z).minX (rects z).maxX (rects z).minY (rects z).maxY
      (step.1, acc.2 + step.2))
    (db.store, 0)
  ({ db with store := result.1, cache := clearCacheForSource db.cache source },
    result.2)

/-- deleteTilesForJob(source, bounds, minZoom, maxZoom): its first
statement destructures getTileBounds from require('./TileCalculator.js'),
evaluating the undefined global require, so in this ES-module package the
call throws ReferenceError before any deletion or cache sweep; the
deletion logic it never reaches is deleteTilesForJobBody.  Returns the
(on throw, unchanged) state together with the thrown-or-returned
result. -/
def deleteTilesForJob (db : TileDB) (source : String) (rects : ℕ → TileRange)
    (minZoom maxZoom : ℕ) : TileDB × Except String ℕ :=
  if requireIsDefined then
    ((deleteTilesForJobBody db source rects minZoom maxZoom).1,
      Except.ok (deleteTilesForJobBody db source rects minZoom maxZoom).2)
  else (db, Except.error "ReferenceError: require is not defined")

/-- The most-recently-used entry of the cache is the last entry of the
insertion-ordered list. -/
def isMRU (c : Cache) (k : CacheKey) : Bool :=
  match c.getLast? with
  | some e => decide (e.1 = k)
  | none => false

/-- Concrete cache keys for the LRU counterexample. -/
def lruKeyA : CacheKey := getCacheKey 1 2 3 "arcgis"

def lruKeyB : CacheKey := getCacheKey 1 2 4 "arcgis"

/-- A database whose cache holds lruKeyA (oldest) then lruKeyB, with spare
capacity. -/
def lruDemoDB : TileDB :=
  { store := [], cache := [(lruKeyA, [1]), (lruKeyB, [2])], maxCacheSize := 3 }

/-- A database whose cache is exactly at capacity, lruKeyA oldest. -/
def atCapDB : TileDB :=
  { store := [], cache := [(lruKeyA, [1]), (lruKeyB, [2])], maxCacheSize := 2 }

/-- Concrete rows and rectangle for exercising deleteTilesForJob: the first
row lies inside the rectangle at zoom 5, the second lies outside it. -/
def delDemoRow1 : TileRow := ⟨5, 10, 10, "arcgis", 0, [1]⟩

def delDemoRow2 : TileRow := ⟨5, 99, 10, "arcgis", 0, [2]⟩

def delDemoRect : TileRange := ⟨0, 20, 0, 20, 5⟩

def delDemoDB : TileDB :=
  { store := [delDemoRow1, delDemoRow2],
    cache := [(getCacheKey 5 10 10 "arcgis", [1])],
    maxCacheSize := 3 }

/-! Download scheduler: src/core/TileDownloader.js. -/

/-- The per-job downloadStats record {downloadedCount, failedCount,
skippedCount}; the startTime field is only used for logging and is
omitted. -/
structure DownloadStats where
  downloadedCount : ℕ
  failedCount : ℕ
  skippedCount : ℕ
deriving DecidableEq

/-- handleTileSkipped(jobId). -/
def handleTileSkipped (st : DownloadStats) : DownloadStats :=
  { st with skippedCount := st.skippedCount + 1 }

/-- handleTileFailed(jobId); the parallel activeJobs failedTiles counter
always mirrors failedCount and is not duplicated here. -/
def handleTileFailed (st : DownloadStats) : DownloadStats :=
  { st with failedCount := st.failedCount + 1 }

/-- The startJob loop over queueTile: a tile already present in the store
is counted as skipped immediately; every other tile is appended to the
download queue.  The store is consulted through the hasTile0 predicate,
fixed for the whole loop because the loop runs synchronously before any
fetch completes.  The counters start from the zeroed stats record that
startJob installs. -/
def queueTiles (hasTile0 : Tile → Bool) (tiles : List Tile) :
    DownloadStats × List Tile :=
  tiles.foldl
    (fun (acc : DownloadStats × List Tile) t =>
      if hasTile0 t then (handleTileSkipped acc.1, acc.2)
      else (acc.1, acc.2 ++ [t]))
    (⟨0, 0, 0⟩, [])

/-- Draining the queue: each dequeued task's downloadTile either stores
the bytes and increments downloadedCount (success path) or increments
failedCount (catch path).  The final counters are independent of the
fetch interleaving, so the queue is folded in order with the per-tile
outcome supplied as a predicate. -/
def runQueue (outcome : Tile → Bool) (st : DownloadStats) (queue : List Tile) :
    DownloadStats :=
  queue.foldl
    (fun st t =>
      if outcome t then { st with downloadedCount := st.downloadedCount + 1 }
      else handleTileFailed st)
    st

/-- A row of the download_jobs table. -/
structure JobRecord where
  id : String
  name : String
  source : String
  bounds : GeoBounds
  minZoom : ℕ
  maxZoom : ℕ
  totalTiles : ℕ
  downloadedTiles : ℕ
  status : String
  createdAt : ℕ
  updatedAt : ℕ
deriving DecidableEq

/-- updateJobStatus: UPDATE download_jobs SET status = ?, updatedAt = ?
WHERE id = ?, applied to one row. -/
def updateJobStatus (r : JobRecord) (status : String) (now : ℕ) : JobRecord :=
  { r with status := status, updatedAt := now }

/-- updateJobProgress: UPDATE download_jobs SET downloadedTiles = ?,
updatedAt = ? WHERE id = ?, applied to one row. -/
def updateJobProgress (r : JobRecord) (downloadedTiles : ℕ) (now : ℕ) :
    JobRecord :=
  { r with downloadedTiles := downloadedTiles, updatedAt := now }

/-- The terminal status completeJob writes: completed_with_errors when
failedCount > 0, completed otherwise. -/
def completeJobStatus (st : DownloadStats) : String :=
  if 0 < st.failedCount then "completed_with_errors" else "completed"

/-- completeJob(jobId) as it acts on the job's registry row: flush the
final downloaded count, then write the terminal status. -/
def completeJobRecord (r : JobRecord) (st : DownloadStats) (now : ℕ) :
    JobRecord :=
  updateJobStatus (updateJobProgress r st.downloadedCount now)
    (completeJobStatus st) now

/-- handleTileDownloaded(jobId) acting on the live stats record and the
job's registry row: increment downloadedCount, and persist it to the
registry only when the new count is a multiple of 10. -/
def handleTileDownloaded (st : DownloadStats) (r : JobRecord) (now : ℕ) :
    DownloadStats × JobRecord :=
  if (st.downloadedCount + 1) % 10 = 0 then
    ({ st with downloadedCount := st.downloadedCount + 1 },
      updateJobProgress r (st.downloadedCount + 1) now)
  else ({ st with downloadedCount := st.downloadedCount + 1 }, r)

/-- n consecutive successful tile downloads, each reported through
handleTileDownloaded. -/
def iterateDownloaded (now : ℕ) : ℕ → DownloadStats × JobRecord →
    DownloadStats × JobRecord
  | 0, p => p
  | n + 1, p => iterateDownloaded now n (handleTileDownloaded p.1 p.2 now)

/-- An entry of the scheduler's in-memory activeJobs map (the fields the
claims touch). -/
structure ActiveJob where
  source : String
  totalTiles : ℕ
  downloadedTiles : ℕ
  failedTiles : ℕ
  status : String
deriving DecidableEq

/-- A queued download task {jobId, source, z, x, y}. -/
structure QueuedTask where
  jobId : String
  source : String
  z : ℕ
  x : ℤ
  y : ℤ
deriving DecidableEq

/-- The downloader's mutable state together with the registry table it
writes through this.db: the shared queue, the activeJobs map, the
downloadStats map, and the download_jobs rows. -/
structure SchedState where
  queue : List QueuedTask
  activeJobs : List (String × ActiveJob)
  downloadStats : List (String × DownloadStats)
  registry : List JobRecord
deriving DecidableEq

/-- UPDATE download_jobs SET status = ?, updatedAt = ? WHERE id = ?
applied to the whole table. -/
def registryUpdateStatus (registry : List JobRecord) (jobId status : String)
    (now : ℕ) : List JobRecord :=
  registry.map fun r => if r.id = jobId then updateJobStatus r status now else r

/-- cancelJob(jobId): false when the job has no in-memory presence;
otherwise drop the job's queued tasks, write status cancelled to the
registry, and delete the in-memory bookkeeping.  No progress flush
happens on this path. -/
def cancelJob (s : SchedState) (jobId : String) (now : ℕ) :
    Bool × SchedState :=
  if (s.activeJobs.find? fun e => decide (e.1 = jobId)).isSome then
    (true,
      { queue := s.queue.filter fun t => !decide (t.jobId = jobId),
        activeJobs := s.activeJobs.filter fun e => !decide (e.1 = jobId),
        downloadStats := s.downloadStats.filter fun e => !decide (e.1 = jobId),
        registry := registryUpdateStatus s.registry jobId "cancelled" now })
  else (false, s)

/-- The progress an active job reports through the scheduler's
getJobStatus(jobId): Math.round((downloaded + failed + skipped) /
totalTiles * 100), and 0 when totalTiles is 0. -/
def downloaderProgress (st : DownloadStats) (totalTiles : ℕ) : ℤ :=
  if 0 < totalTiles then
    round (((st.downloadedCount + st.failedCount + st.skippedCount : ℕ) : ℚ)
      / (totalTiles : ℚ) * 100)
  else 0

/-- The registry fallback in TileForge.getJobStatus:
Math.round(downloadedTiles / totalTiles * 100), 0 when totalTiles is 0. -/
def registryProgress (downloadedTiles totalTiles : ℕ) : ℤ :=
  if 0 < totalTiles then
    round ((downloadedTiles : ℚ) / (totalTiles : ℚ) * 100)
  else 0

/-- Modelled from the spec: the claimed progress formula
round(100 * downloaded / total), 0 when total is 0, stated from the
spec's words for comparison with the two formulas the code computes. -/
def specProgress (downloaded totalTiles : ℕ) : ℤ :=
  if 0 < totalTiles then
    round (100 * (downloaded : ℚ) / (totalTiles : ℚ))
  else 0

/-! Facade: src/TileForge.js, with src/config/sources.js. -/

/-- The configured tile sources (src/config/sources.js). -/
def availableSourceIds : List String :=
  ["arcgis", "google", "esri-world-imagery"]

/-- isValidSource(sourceId). -/
def isValidSource (sourceId : String) : Bool :=
  availableSourceIds.contains sourceId

/-- createDownloadJob: INSERT INTO download_jobs; downloadedTiles and
status take the table defaults 0 and pending. -/
def createDownloadJob (registry : List JobRecord) (id name source : String)
    (bounds : GeoBounds) (minZoom maxZoom totalTiles now : ℕ) :
    List JobRecord :=
  registry ++
    [{ id := id, name := name, source := source, bounds := bounds,
       minZoom := minZoom, maxZoom := maxZoom, totalTiles := totalTiles,
       downloadedTiles := 0, status := "pending", createdAt := now,
       updatedAt := now }]

/-- SELECT * FROM download_jobs WHERE id = ?. -/
def registryFind (registry : List JobRecord) (jobId : String) :
    Option JobRecord :=
  registry.find? fun r => decide (r.id = jobId)

/-- updateJobZoomLevels: SET minZoom, maxZoom, totalTiles, updatedAt
WHERE id = ?, applied to the whole table. -/
def registryUpdateZoomLevels (registry : List JobRecord) (jobId : String)
    (minZoom maxZoom totalTiles now : ℕ) : List JobRecord :=
  registry.map fun r =>
    if r.id = jobId then
      { r with minZoom := minZoom, maxZoom := maxZoom,
               totalTiles := totalTiles, updatedAt := now }
    else r

/-- The full mutable state the facade touches: the tile database (store
plus cache) and the scheduler state (queue, active jobs, stats, registry;
the registry rows live in the same backend as the tiles). -/
structure World where
  db : TileDB
  sched : SchedState
deriving DecidableEq

/-- startJob(jobId, source, tiles): install the in-memory bookkeeping with
zeroed counters, write status running, then run the queueTile loop (skips
counted immediately, the rest enqueued tagged with the job).  The
asynchronous processQueue drain is modelled separately by runQueue. -/
def startJob (w : World) (jobId source : String) (tiles : List Tile)
    (now : ℕ) : World :=
  let qs := queueTiles
    (fun t => hasTile w.db (t.z : ℤ) t.x t.y source) tiles
  { db := w.db,
    sched := {
      queue := w.sched.queue ++
        qs.2.map fun t => ⟨jobId, source, t.z, t.x, t.y⟩,
      activeJobs := w.sched.activeJobs ++
        [(jobId, ⟨source, tiles.length, 0, 0, "running"⟩)],
      downloadStats := w.sched.downloadStats ++ [(jobId, qs.1)],
      registry := registryUpdateStatus w.sched.registry jobId "running" now } }

/-- TileForge.download(options): validate the source, the bounds and the
zoom range in that order (each failure throws synchronously before any
mutation), then generate the tile list, insert the registry row and hand
the job to the scheduler.  The generated job id and the Date.now()
timestamp are passed explicitly; the result mirrors
{jobId, totalTiles, status}. -/
def download (merc : ℚ → ℚ) (w : World) (jobId name source : String)
    (bounds : GeoBounds) (minZoom maxZoom : ℕ) (now : ℕ) :
    Except String (String × ℕ × String) × World :=
  if isValidSource source = false then
    (Except.error "Invalid tile source", w)
  else if isValidBounds bounds = false then
    (Except.error "Invalid bounds", w)
  else if isValidZoomRange minZoom maxZoom = false then
    (Except.error "Invalid zoom range", w)
  else
    let tiles := getTileList merc bounds minZoom maxZoom
    let w1 := { w with sched := { w.sched with
      registry := createDownloadJob w.sched.registry jobId name source bounds
        minZoom maxZoom tiles.length now } }
    (Except.ok (jobId, tiles.length, "running"),
      startJob w1 jobId source tiles now)

/-- TileForge.extendJob(jobId, options): look the job up (unknown job id
throws), validate the new zoom range (throws), then regenerate the tile
list over the stored bounds, update the zoom columns and status, and
resubmit to the scheduler under the same job id. -/
def extendJob (merc : ℚ → ℚ) (w : World) (jobId : String)
    (minZoom maxZoom : ℕ) (now : ℕ) :
    Except String (String × ℕ × String) × World :=
  match registryFind w.sched.registry jobId with
  | none => (Except.error "Job not found", w)
  | some job =>
    if isValidZoomRange minZoom maxZoom = false then
      (Except.error "Invalid zoom range", w)
    else
      let tiles := getTileList merc job.bounds minZoom maxZoom
      let w1 := { w with sched := { w.sched with
        registry := registryUpdateStatus
          (registryUpdateZoomLevels w.sched.registry jobId minZoom maxZoom
            tiles.length now)
          jobId "running" now } }
      (Except.ok (jobId, tiles.length, "running"),
        startJob w1 jobId job.source tiles now)

/-- An empty world for witnesses. -/
def emptyWorld : World :=
  { db := { store := [], cache := [], maxCacheSize := 1000 },
    sched := { queue := [], activeJobs := [], downloadStats := [],
               registry := [] } }

/-! The rate-limit gate of src/core/TileDownloader.js. -/

/-- One complete, uninterrupted execution of rateLimit() followed by the
request: read lastRequestTime, sleep when the elapsed time is below
minRequestInterval, stamp, fire.  With an exact timer the issue instant
is now when no wait is needed, and lastRequestTime + minRequestInterval
otherwise.  Times are JS epoch milliseconds, modelled as integers. -/
def rateLimitIssueTime (minRequestInterval lastRequestTime now : ℤ) : ℤ :=
  if now - lastRequestTime < minRequestInterval then
    now + (minRequestInterval - (now - lastRequestTime))
  else now

/-- The issue instants of rateLimit executions run to completion one
after the other: the k-th call enters at clock value nows_k and the stamp
it wrote becomes the lastRequestTime the next call reads. -/
def seqIssueTimes (minRequestInterval : ℤ) : ℤ → List ℤ → List ℤ
  | _, [] => []
  | lastTime, now :: rest =>
      rateLimitIssueTime minRequestInterval lastTime now ::
        seqIssueTimes minRequestInterval
          (rateLimitIssueTime minRequestInterval lastTime now) rest

/-- Checks that consecutive entries of a list of issue instants are at
least the given interval apart. -/
def gapsRespect (minRequestInterval : ℤ) : List ℤ → Bool
  | [] => true
  | [_] => true
  | a :: b :: rest =>
      decide (minRequestInterval ≤ b - a) &&
        gapsRespect minRequestInterval (b :: rest)

/-- The phase of one downloadTile fetch with respect to the gate: not yet
entered, parked on the setTimeout (with its wake time), or already issued
(with its issue time). -/
inductive FetchPhase where
  | start : FetchPhase
  | waiting : ℤ → FetchPhase
  | issued : ℤ → FetchPhase
deriving DecidableEq

/-- The shared gate state: the wall clock, this.lastRequestTime, the
phase of each in-flight fetch, and the log of issue instants in issue
order. -/
structure GateState where
  time : ℤ
  lastRequestTime : ℤ
  fetches : List FetchPhase
  log : List ℤ
deriving DecidableEq

/-- A scheduler step: let wall-clock time pass, or run the next
synchronous JS segment of fetch i.  From start, rateLimit either issues
immediately (elapsed >= interval: stamp and fire in one atomic turn) or
computes the delay and parks on setTimeout; from waiting, it resumes at
any time at or after the wake time, stamps Date.now() and fires — the
code never re-checks the gate after sleeping. -/
inductive GateStep where
  | tick : ℤ → GateStep
  | run : ℕ → GateStep
deriving DecidableEq

def gateStep (minRequestInterval : ℤ) (s : GateState) :
    GateStep → Option GateState
  | .tick t => if s.time ≤ t then some { s with time := t } else none
  | .run i =>
    match s.fetches.get? i with
    | some .start =>
        if s.time - s.lastRequestTime < minRequestInterval then
          some { s with
            fetches := s.fetches.set i (.waiting (s.time +
              (minRequestInterval - (s.time - s.lastRequestTime)))) }
        else
          some { s with
            lastRequestTime := s.time,
            fetches := s.fetches.set i (.issued s.time),
            log := s.log ++ [s.time] }
    | some (.waiting wake) =>
        if wake ≤ s.time then
          some { s with
            lastRequestTime := s.time,
            fetches := s.fetches.set i (.issued s.time),
            log := s.log ++ [s.time] }
        else none
    | _ => none

def runGate (minRequestInterval : ℤ) :
    GateState → List GateStep → Option GateState
  | s, [] => some s
  | s, step :: rest =>
      match gateStep minRequestInterval s step with
      | some s' => runGate minRequestInterval s' rest
      | none => none

/-- The concurrent schedule refuting the global spacing claim at
rateLimitMs = 500: fetch 0 issues at 600; fetches 1 and 2 then both read
lastRequestTime = 600 while parked, and both stamp and issue at time
1200. -/
def overlapSchedule : List GateStep :=
  [.run 0, .tick 700, .run 1, .tick 750, .run 2, .tick 1200, .run 1, .run 2]

/-- Three fetches yet to enter the gate, clock at 600, no request issued
yet. -/
def gateStart : GateState :=
  { time := 600, lastRequestTime := 0,
    fetches := [.start, .start, .start], log := [] }

/-- Concrete fixtures for witnesses: a three-tile list of which exactly
the zoom-0 tile pre-exists, and a registry row for the job. -/
def demoTiles : List Tile := [⟨0, 0, 0⟩, ⟨1, 0, 1⟩, ⟨2, 0, 1⟩]

def demoHasTile : Tile → Bool := fun t => decide (t.z = 0)

def demoJobRecord : JobRecord :=
  ⟨"job1", "demo", "arcgis", ⟨1, 0, 0, -1⟩, 0, 1, 3, 0, "running", 0, 0⟩

/-- A fresh registry row with no persisted progress. -/
def blankJobRecord : JobRecord :=
  ⟨"job2", "blank", "arcgis", ⟨1, 0, 0, -1⟩, 0, 1, 40, 0, "running", 0, 0⟩

/-- A scheduler state with one active job (job1) and queued work for it. -/
def cancelDemoSched : SchedState :=
  { queue := [⟨"job1", "arcgis", 1, 2, 3⟩, ⟨"job1", "arcgis", 1, 2, 4⟩],
    activeJobs := [("job1", ⟨"arcgis", 5, 3, 0, "running"⟩)],
    downloadStats := [("job1", ⟨3, 0, 1⟩)],
    registry := [demoJobRecord] }

/-- The boundary bounds box cited by the claim: east = 180, a value
isValidBounds accepts. -/
def eastBoundaryBounds : GeoBounds := ⟨1, 0, 180, 0⟩

end TileForge

namespace TileForge

/-! Helper lemmas about the coordinate calculator. -/

theorem intRange_length (a b : ℤ) : (intRange a b).length = (b + 1 - a).toNat := by
  unfold intRange
  rw [List.length_map, List.length_range]

theorem floor_scaled_nonneg (q : ℚ) (z : ℕ) (h : 0 ≤ q) :
    0 ≤ Int.floor (q * 2 ^ z) := by
  apply Int.floor_nonneg.mpr
  positivity

theorem floor_scaled_le (q : ℚ) (z : ℕ) (h : q < 1) :
    Int.floor (q * 2 ^ z) ≤ 2 ^ z - 1 := by
  have hlt : Int.floor (q * 2 ^ z) < 2 ^ z := by
    apply Int.floor_lt.mpr
    push_cast
    calc q * 2 ^ z < 1 * 2 ^ z := by
          apply mul_lt_mul_of_pos_right h
          positivity
      _ = 2 ^ z := one_mul _
  omega

theorem latLngToTileX_nonneg (lng : ℚ) (zoom : ℕ) (h : -180 ≤ lng) :
    0 ≤ latLngToTileX lng zoom := by
  apply floor_scaled_nonneg
  apply div_nonneg _ (by norm_num)
  linarith

theorem latLngToTileX_le (lng : ℚ) (zoom : ℕ) (h : lng < 180) :
    latLngToTileX lng zoom ≤ 2 ^ zoom - 1 := by
  apply floor_scaled_le
  rw [div_lt_one (by norm_num)]
  linarith

theorem isValidBounds_spec (b : GeoBounds) (h : isValidBounds b = true) :
    -webMercatorLatLimit ≤ b.north ∧ b.north ≤ webMercatorLatLimit ∧
    -webMercatorLatLimit ≤ b.south ∧ b.south ≤ webMercatorLatLimit ∧
    -180 ≤ b.east ∧ b.east ≤ 180 ∧ -180 ≤ b.west ∧ b.west ≤ 180 ∧
    b.south < b.north := by
  unfold isValidBounds at h
  split_ifs at h with h1 h2 h3 h4 h5
  push_neg at h1 h2 h3 h4
  refine ⟨h1.1, h1.2, h2.1, h2.2, h3.1, h3.2, h4.1, h4.2, ?_⟩
  exact lt_of_not_ge h5

theorem getTileBounds_minX_le_maxX (merc : ℚ → ℚ) (b : GeoBounds) (z : ℕ) :
    (getTileBounds merc b z).minX ≤ (getTileBounds merc b z).maxX := by
  simp only [getTileBounds]
  exact le_trans (min_le_left _ _) (le_max_left _ _)

theorem getTileBounds_minY_le_maxY (merc : ℚ → ℚ) (b : GeoBounds) (z : ℕ) :
    (getTileBounds merc b z).minY ≤ (getTileBounds merc b z).maxY := by
  simp only [getTileBounds]
  exact le_trans (min_le_left _ _) (le_max_left _ _)

unseal Rat.add Rat.mul Rat.inv Rat.sub in
/-- Claim C2, counterexample.  The bounds {north: 1, south: 0, east: 180,
west: 0} pass isValidBounds, yet at zoom 0 the computed tile range has
maxX = floor((180 + 180) / 360 * 2^0) = 1, outside [0, 2^0 - 1] = [0, 0].
The claim's inclusion of the boundary longitude east = 180 is therefore
false of the code. -/
theorem tileBounds_east180_out_of_range :
    isValidBounds eastBoundaryBounds = true ∧
    (getTileBounds mercHalf eastBoundaryBounds 0).maxX = 1 ∧
    ¬((getTileBounds mercHalf eastBoundaryBounds 0).maxX ≤ 2 ^ (0 : ℕ) - 1) := by
  decide

/-- Claim C2, amended: for bounds that pass isValidBounds and whose
longitudes are strictly below 180, and whenever the normalized-Mercator
values of the two latitudes lie in [0, 1) (true of latitudes strictly
inside the Web Mercator limits; the boundary latitude -85.051129 lies just
beyond the true limit arctan(sinh pi) and yields 2^z, as east = 180 does
for x), the tile range satisfies minX <= maxX, minY <= maxY, with all four
indices inside [0, 2^z - 1]. -/
theorem tileRange_valid_of_strict_bounds (merc : ℚ → ℚ) (b : GeoBounds) (z : ℕ)
    (hb : isValidBounds b = true) (he : b.east < 180) (hw : b.west < 180)
    (hn0 : 0 ≤ merc b.north) (hn1 : merc b.north < 1)
    (hs0 : 0 ≤ merc b.south) (hs1 : merc b.south < 1) :
    (getTileBounds merc b z).minX ≤ (getTileBounds merc b z).maxX ∧
    (getTileBounds merc b z).minY ≤ (getTileBounds merc b z).maxY ∧
    0 ≤ (getTileBounds merc b z).minX ∧
    (getTileBounds merc b z).maxX ≤ 2 ^ z - 1 ∧
    0 ≤ (getTileBounds merc b z).minY ∧
    (getTileBounds merc b z).maxY ≤ 2 ^ z - 1 := by
  obtain ⟨_, _, _, _, hee, _, hww, _, _⟩ := isValidBounds_spec b hb
  refine ⟨getTileBounds_minX_le_maxX merc b z, getTileBounds_minY_le_maxY merc b z,
    ?_, ?_, ?_, ?_⟩
  · exact le_min (latLngToTileX_nonneg _ _ hww) (latLngToTileX_nonneg _ _ hee)
  · exact max_le (latLngToTileX_le _ _ hw) (latLngToTileX_le _ _ he)
  · exact le_min (floor_scaled_nonneg _ _ hn0) (floor_scaled_nonneg _ _ hs0)
  · exact max_le (floor_scaled_le _ _ hn1) (floor_scaled_le _ _ hs1)

unseal Rat.add Rat.mul Rat.inv Rat.sub in
/-- Witness for the amended C2 theorem at the concrete bounds
{north: 1, south: 0, east: 0, west: -1} and zoom 5. -/
theorem tileRange_valid_of_strict_bounds_witness :
    isValidBounds ⟨1, 0, 0, -1⟩ = true ∧
    0 ≤ (getTileBounds mercHalf ⟨1, 0, 0, -1⟩ 5).minX ∧
    (getTileBounds mercHalf ⟨1, 0, 0, -1⟩ 5).maxX ≤ 2 ^ (5 : ℕ) - 1 :=
  have h := tileRange_valid_of_strict_bounds mercHalf ⟨1, 0, 0, -1⟩ 5
    (by decide) (by decide) (by decide) (by decide) (by decide)
    (by decide) (by decide)
  ⟨by decide, h.2.2.1, h.2.2.2.1⟩

theorem length_flatMap_eq_sum {α β : Type} (l : List α) (f : α → List β) :
    (l.flatMap f).length = (l.map fun a => (f a).length).sum :=
  List.length_flatMap l f

theorem tilesAtZoom_length (a b c d : ℤ) (z : ℕ) :
    ((intRange a b).flatMap fun x => (intRange c d).map fun y => Tile.mk x y z).length
      = (b + 1 - a).toNat * (d + 1 - c).toNat := by
  rw [length_flatMap_eq_sum]
  simp only [List.length_map, intRange_length]
  rw [List.map_const', List.sum_replicate, smul_eq_mul, intRange_length]

theorem width_height_cast (tb : TileRange) (h1 : tb.minX ≤ tb.maxX)
    (h2 : tb.minY ≤ tb.maxY) :
    (tb.maxX - tb.minX + 1) * (tb.maxY - tb.minY + 1)
      = (((tb.maxX + 1 - tb.minX).toNat * (tb.maxY + 1 - tb.minY).toNat : ℕ) : ℤ) := by
  push_cast [Int.toNat_of_nonneg (show (0 : ℤ) ≤ tb.maxX + 1 - tb.minX by omega),
    Int.toNat_of_nonneg (show (0 : ℤ) ≤ tb.maxY + 1 - tb.minY by omega)]
  ring

/-- Claim C4: the closed-form tile count computed by calculateTileCount
equals the length of the tile list enumerated by getTileList, over every
bounds box, every zoom range, and every normalized-Mercator function. -/
theorem calculateTileCount_eq_getTileList_length (merc : ℚ → ℚ) (b : GeoBounds)
    (minZoom maxZoom : ℕ) :
    calculateTileCount merc b minZoom maxZoom
      = ((getTileList merc b minZoom maxZoom).length : ℤ) := by
  unfold calculateTileCount getTileList
  rw [length_flatMap_eq_sum, Nat.cast_list_sum, List.map_map]
  refine congrArg List.sum (List.map_congr_left ?_)
  intro z _
  rw [Function.comp_apply, tilesAtZoom_length]

  exact width_height_cast (getTileBounds merc b z)
    (getTileBounds_minX_le_maxX merc b z) (getTileBounds_minY_le_maxY merc b z)

/-! Helper lemmas about the cache and the store. -/

theorem cacheGet_cacheSet_self (c : Cache) (k : CacheKey) (v : Bytes) :
    cacheGet (cacheSet c k v) k = some v := by
  induction c with
  | nil => simp [cacheGet, cacheSet, List.find?]
  | cons e rest ih =>
    by_cases h : e.1 = k
    · simp [cacheGet, cacheSet, h, List.find?]
    · simp only [cacheSet, if_neg h]
      simp only [cacheGet, List.find?] at ih ⊢
      rw [decide_eq_false h]
      exact ih

theorem cacheSet_ne_nil (c : Cache) (k : CacheKey) (v : Bytes) :
    cacheSet c k v ≠ [] := by
  cases c with
  | nil => simp [cacheSet]
  | cons e rest =>
    by_cases h : e.1 = k <;> simp [cacheSet, h]

theorem getLast?_cons_of_ne_nil {α : Type} (e : α) (l : List α) (h : l ≠ []) :
    (e :: l).getLast? = l.getLast? := by
  cases l with
  | nil => exact absurd rfl h
  | cons x xs => exact List.getLast?_cons_cons

theorem cacheHas_cons_false (e : CacheKey × Bytes) (rest : Cache) (k : CacheKey)
    (h : cacheHas (e :: rest) k = false) :
    ¬e.1 = k ∧ cacheHas rest k = false := by
  simp only [cacheHas, List.any_cons, Bool.or_eq_false_iff, decide_eq_false_iff_not] at h
  exact ⟨h.1, h.2⟩

theorem isMRU_cacheSet_of_not_has (c : Cache) (k : CacheKey) (v : Bytes)
    (h : cacheHas c k = false) : isMRU (cacheSet c k v) k = true := by
  induction c with
  | nil => simp [isMRU, cacheSet]
  | cons e rest ih =>
    obtain ⟨hek, hrest⟩ := cacheHas_cons_false e rest k h
    rw [cacheSet, if_neg hek]
    unfold isMRU
    rw [getLast?_cons_of_ne_nil _ _ (cacheSet_ne_nil rest k v)]
    exact ih hrest

theorem cacheHas_cacheDelete_self (c : Cache) (k : CacheKey) :
    cacheHas (cacheDelete c k) k = false := by
  simp only [cacheHas, cacheDelete]
  rw [List.any_eq_false]
  intro e he
  have hne := of_decide_eq_true (List.mem_filter.mp he).2
  simp [hne]

theorem cacheHas_tail_of_not (c : Cache) (k : CacheKey)
    (h : cacheHas c k = false) : cacheHas c.tail k = false := by
  cases c with
  | nil => simpa using h
  | cons e rest => exact (cacheHas_cons_false e rest k h).2

theorem cacheHas_manageCacheSize_of_not (c : Cache) (m : ℕ) (k : CacheKey)
    (h : cacheHas c k = false) : cacheHas (manageCacheSize c m) k = false := by
  unfold manageCacheSize
  split
  · exact cacheHas_tail_of_not c k h
  · exact h

theorem cacheGet_eq_none_of_not_has (c : Cache) (k : CacheKey)
    (h : cacheHas c k = false) : cacheGet c k = none := by
  rw [cacheHas, List.any_eq_false] at h
  unfold cacheGet
  rw [List.find?_eq_none.mpr h]
  rfl

theorem manageCacheSize_of_full (c : Cache) (m : ℕ) (h : m ≤ c.length) :
    manageCacheSize c m = c.tail := by
  unfold manageCacheSize
  rw [if_pos h]

theorem cacheGet_isSome_of_has (c : Cache) (k : CacheKey)
    (h : cacheHas c k = true) : ∃ v, cacheGet c k = some v := by
  simp only [cacheHas, List.any_eq_true, decide_eq_true_eq] at h
  obtain ⟨e, he, hek⟩ := h
  have : (c.find? fun e => decide (e.1 = k)).isSome := by
    rw [List.find?_isSome]
    exact ⟨e, he, by simpa using hek⟩
  obtain ⟨e', he'⟩ := Option.isSome_iff_exists.mp this
  exact ⟨e'.2, by simp [cacheGet, he']⟩

theorem cacheSet_map_fst_of_has (c : Cache) (k : CacheKey) (v : Bytes)
    (h : cacheHas c k = true) :
    (cacheSet c k v).map Prod.fst = c.map Prod.fst := by
  induction c with
  | nil => simp [cacheHas] at h
  | cons e rest ih =>
    by_cases hek : e.1 = k
    · simp [cacheSet, hek]
    · have hrest : cacheHas rest k = true := by
        simpa [cacheHas, hek] using h
      simp [cacheSet, hek, ih hrest]

theorem manageCacheSize_of_lt (c : Cache) (m : ℕ) (h : c.length < m) :
    manageCacheSize c m = c := by
  unfold manageCacheSize
  rw [if_neg (by omega)]

theorem cacheHas_clearCacheForSource (c : Cache) (source : String)
    (k : CacheKey) (hk : k.source = source) :
    cacheHas (clearCacheForSource c source) k = false := by
  simp only [cacheHas, clearCacheForSource]
  rw [List.any_eq_false]
  intro e he
  have hne := (List.mem_filter.mp he).2
  simp only [Bool.not_eq_true', decide_eq_false_iff_not] at hne
  simp only [decide_eq_true_eq]
  intro hek
  exact hne (by rw [hek, hk])

theorem zoomRange_self (z : ℕ) : zoomRange z z = [z] := by
  unfold zoomRange
  rw [show z + 1 - z = 1 by omega, List.range'_one]

/-- Claim C7: a saveTile for a key followed immediately by a getTile for
the same key returns exactly the saved bytes (the fresh cache entry is
hit). -/
theorem saveTile_getTile_roundtrip (db : TileDB) (z x y : ℤ) (source : String)
    (data : Bytes) (timestamp : ℕ) :
    (getTile (saveTile db z x y source data timestamp) z x y source).1
      = some data := by
  unfold getTile saveTile
  simp only [cacheGet_cacheSet_self]

/-- Claim C6, counterexample.  With spare capacity, a saveTile that
overwrites the already-cached oldest key lruKeyA updates its bytes in
place: Map.prototype.set keeps the original insertion position, so
lruKeyA does not become the most-recently-used entry (lruKeyB stays
last).  The claim that every put touching a cached key refreshes it as
most recently used is therefore false of the code. -/
theorem put_does_not_refresh_recency :
    cacheHas lruDemoDB.cache lruKeyA = true ∧
    isMRU (saveTile lruDemoDB 1 2 3 "arcgis" [9] 0).cache lruKeyA = false ∧
    isMRU (saveTile lruDemoDB 1 2 3 "arcgis" [9] 0).cache lruKeyB = true := by
  decide

/-- Claim C6, amended: getTile promotes a cache-hit key to most recently
used and inserts a backend-hit key as most recently used; saveTile
inserts an uncached key as most recently used; hasTile performs no
recency update (it only reads); and saveTile of an already-cached key
overwrites the bytes without a recency refresh of its own — below
capacity the key order of the cache is unchanged (JS Map.set keeps the
insertion position), while at capacity manageCacheSize first evicts the
oldest entry, so overwriting the oldest cached key incidentally
re-appends it as most recently used and overwriting any other cached key
drops the unrelated oldest entry, keeping the overwritten key's position
among the survivors. -/
theorem lru_recency_amended :
    (∀ (db : TileDB) (z x y : ℤ) (source : String),
      cacheHas db.cache (getCacheKey z x y source) = true →
      isMRU ((getTile db z x y source).2).cache (getCacheKey z x y source)
        = true) ∧
    (∀ (db : TileDB) (z x y : ℤ) (source : String) (row : TileRow),
      cacheHas db.cache (getCacheKey z x y source) = false →
      storeFind db.store z x y source = some row →
      isMRU ((getTile db z x y source).2).cache (getCacheKey z x y source)
        = true) ∧
    (∀ (db : TileDB) (z x y : ℤ) (source : String) (data : Bytes) (ts : ℕ),
      cacheHas db.cache (getCacheKey z x y source) = false →
      isMRU (saveTile db z x y source data ts).cache (getCacheKey z x y source)
        = true) ∧
    (∀ (db : TileDB) (z x y : ℤ) (source : String) (data : Bytes) (ts : ℕ),
      cacheHas db.cache (getCacheKey z x y source) = true →
      db.cache.length < db.maxCacheSize →
      (saveTile db z x y source data ts).cache.map Prod.fst
          = db.cache.map Prod.fst ∧
        cacheGet (saveTile db z x y source data ts).cache
          (getCacheKey z x y source) = some data) ∧
    (∀ (db : TileDB) (z x y : ℤ) (source : String) (data v : Bytes)
      (rest : Cache) (ts : ℕ),
      db.maxCacheSize ≤ db.cache.length →
      db.cache = (getCacheKey z x y source, v) :: rest →
      cacheHas rest (getCacheKey z x y source) = false →
      isMRU (saveTile db z x y source data ts).cache (getCacheKey z x y source)
        = true) ∧
    (∀ (db : TileDB) (z x y : ℤ) (source : String) (data : Bytes) (ts : ℕ),
      db.maxCacheSize ≤ db.cache.length →
      cacheHas db.cache.tail (getCacheKey z x y source) = true →
      (saveTile db z x y source data ts).cache.map Prod.fst
          = db.cache.tail.map Prod.fst ∧
        cacheGet (saveTile db z x y source data ts).cache
          (getCacheKey z x y source) = some data) := by
  refine ⟨?_, ?_, ?_, ?_, ?_, ?_⟩
  · intro db z x y source h
    obtain ⟨v, hv⟩ := cacheGet_isSome_of_has _ _ h
    unfold getTile
    rw [hv]
    exact isMRU_cacheSet_of_not_has _ _ _ (cacheHas_cacheDelete_self db.cache _)
  · intro db z x y source row h hrow
    unfold getTile
    rw [cacheGet_eq_none_of_not_has _ _ h]
    dsimp only
    rw [hrow]
    exact isMRU_cacheSet_of_not_has _ _ _
      (cacheHas_manageCacheSize_of_not db.cache db.maxCacheSize _ h)
  · intro db z x y source data ts h
    unfold saveTile
    exact isMRU_cacheSet_of_not_has _ _ _
      (cacheHas_manageCacheSize_of_not db.cache db.maxCacheSize _ h)
  · intro db z x y source data ts h hlen
    unfold saveTile
    rw [manageCacheSize_of_lt db.cache db.maxCacheSize hlen]
    exact ⟨cacheSet_map_fst_of_has db.cache _ data h,
      cacheGet_cacheSet_self db.cache _ data⟩
  · intro db z x y source data v rest ts hful hhead hrest
    unfold saveTile
    rw [manageCacheSize_of_full db.cache db.maxCacheSize hful, hhead,
      List.tail_cons]
    exact isMRU_cacheSet_of_not_has rest _ data hrest
  · intro db z x y source data ts hful htail
    unfold saveTile
    rw [manageCacheSize_of_full db.cache db.maxCacheSize hful]
    exact ⟨cacheSet_map_fst_of_has db.cache.tail _ data htail,
      cacheGet_cacheSet_self db.cache.tail _ data⟩

/-- Witness for the amended C6 theorem: each of its six parts applied at
a concrete database — a cache hit promoted, a backend hit inserted as
most recently used, a fresh put appended, a below-capacity overwrite
keeping the key order, an at-capacity overwrite of the oldest key
re-appended as most recently used, and an at-capacity overwrite of the
newer key dropping the unrelated oldest entry. -/
theorem lru_recency_amended_witness :
    isMRU ((getTile lruDemoDB 1 2 3 "arcgis").2).cache lruKeyA = true ∧
    isMRU ((getTile delDemoDB 5 99 10 "arcgis").2).cache
      (getCacheKey 5 99 10 "arcgis") = true ∧
    isMRU (saveTile lruDemoDB 7 7 7 "arcgis" [3] 0).cache
      (getCacheKey 7 7 7 "arcgis") = true ∧
    (saveTile lruDemoDB 1 2 3 "arcgis" [9] 0).cache.map Prod.fst
      = lruDemoDB.cache.map Prod.fst ∧
    isMRU (saveTile atCapDB 1 2 3 "arcgis" [9] 0).cache lruKeyA = true ∧
    (saveTile atCapDB 1 2 4 "arcgis" [8] 0).cache.map Prod.fst
      = atCapDB.cache.tail.map Prod.fst :=
  ⟨lru_recency_amended.1 lruDemoDB 1 2 3 "arcgis" (by decide),
    lru_recency_amended.2.1 delDemoDB 5 99 10 "arcgis" delDemoRow2
      (by decide) (by decide),
    lru_recency_amended.2.2.1 lruDemoDB 7 7 7 "arcgis" [3] 0 (by decide),
    (lru_recency_amended.2.2.2.1 lruDemoDB 1 2 3 "arcgis" [9] 0 (by decide)
      (by decide)).1,
    lru_recency_amended.2.2.2.2.1 atCapDB 1 2 3 "arcgis" [9] [1]
      [(lruKeyB, [2])] 0 (by decide) (by decide) (by decide),
    (lru_recency_amended.2.2.2.2.2 atCapDB 1 2 4 "arcgis" [8] 0 (by decide)
      (by decide)).1⟩

theorem deleteTilesForJobBody_single (db : TileDB) (source : String)
    (rect : TileRange) (z : ℕ) :
    deleteTilesForJobBody db source (fun _ => rect) z z
      = ({ db with
            store := (deleteTilesByJob db.store source (z : ℤ) (z : ℤ)
              rect.minX rect.maxX rect.minY rect.maxY).1,
            cache := clearCacheForSource db.cache source },
          (deleteTilesByJob db.store source (z : ℤ) (z : ℤ)
            rect.minX rect.maxX rect.minY rect.maxY).2) := by
  unfold deleteTilesForJobBody
  rw [zoomRange_self]
  simp [List.foldl]

theorem rowMatchesJob_fields (source : String) (z1 z2 x1 x2 y1 y2 : ℤ)
    (r : TileRow)
    (h : rowMatchesJob source z1 z2 x1 x2 y1 y2 r = true) :
    r.source = source ∧ z1 ≤ r.z ∧ r.z ≤ z2 ∧ x1 ≤ r.x ∧ r.x ≤ x2 ∧
      y1 ≤ r.y ∧ r.y ≤ y2 := by
  simpa [rowMatchesJob, Bool.and_eq_true, decide_eq_true_eq, and_assoc]
    using h

/-- Claim C5 (code bug): every call to the range-delete operation throws
ReferenceError — its first statement evaluates require, undefined in this
ES-module package — and leaves the store and the cache untouched, so no
row is ever removed and no count returned; whereas the behaviour the
claim (and the function's own doc comment) describes is exactly what the
code behind the require line would do: deleteTilesForJobBody removes
precisely the rows of the given source and zoom whose (x, y) lie inside
the inclusive rectangle, returns the number of removed rows, and leaves
hasTile false for every deleted key even if it was cache-resident. -/
theorem deleteRange_throws_with_intended_semantics (db : TileDB)
    (source : String) (z : ℕ) (rect : TileRange) :
    (deleteTilesForJob db source (fun _ => rect) z z).1 = db ∧
    (deleteTilesForJob db source (fun _ => rect) z z).2
        = Except.error "ReferenceError: require is not defined" ∧
    (deleteTilesForJobBody db source (fun _ => rect) z z).1.store
        = db.store.filter (fun r =>
            !rowMatchesJob source (z : ℤ) (z : ℤ) rect.minX rect.maxX
              rect.minY rect.maxY r) ∧
    (deleteTilesForJobBody db source (fun _ => rect) z z).2
        = (db.store.filter (fun r =>
            rowMatchesJob source (z : ℤ) (z : ℤ) rect.minX rect.maxX
              rect.minY rect.maxY r)).length ∧
    ∀ r ∈ db.store,
      rowMatchesJob source (z : ℤ) (z : ℤ) rect.minX rect.maxX rect.minY
          rect.maxY r = true →
      hasTile (deleteTilesForJobBody db source (fun _ => rect) z z).1 r.z
        r.x r.y r.source = false := by
  rw [deleteTilesForJobBody_single db source rect z]
  refine ⟨rfl, rfl, rfl, rfl, ?_⟩
  intro r hr hmatch
  obtain ⟨hsrc, hfields⟩ :=
    rowMatchesJob_fields source z z rect.minX rect.maxX rect.minY rect.maxY
      r hmatch
  have hcache : cacheHas (clearCacheForSource db.cache source)
      (getCacheKey r.z r.x r.y r.source) = false :=
    cacheHas_clearCacheForSource db.cache source _ (by simpa [getCacheKey])
  have hstore : storeFind
      (db.store.filter fun r' =>
        !rowMatchesJob source (z : ℤ) (z : ℤ) rect.minX rect.maxX rect.minY
          rect.maxY r')
      r.z r.x r.y r.source = none := by
    unfold storeFind
    rw [List.find?_eq_none]
    intro x hx
    have hxfilter := (List.mem_filter.mp hx).2
    intro hkey
    obtain ⟨hz, hxx, hy, hs⟩ : x.z = r.z ∧ x.x = r.x ∧ x.y = r.y ∧
        x.source = r.source := by
      simpa [rowKeyEq, Bool.and_eq_true, decide_eq_true_eq, and_assoc]
        using hkey
    have hxmatch : rowMatchesJob source (z : ℤ) (z : ℤ) rect.minX rect.maxX
        rect.minY rect.maxY x = true := by
      simp only [rowMatchesJob, Bool.and_eq_true, decide_eq_true_eq,
        hz, hxx, hy, hs, hsrc]
      tauto
    rw [hxmatch] at hxfilter
    simp at hxfilter
  unfold hasTile deleteTilesByJob
  dsimp only
  rw [hcache, hstore]
  rfl

/-- Witness for the C5 theorem: against a concrete store holding one row
inside and one row outside the rectangle, the call itself throws, while
the deletion logic behind the require line would leave hasTile false for
the cache-resident inside row. -/
theorem deleteRange_throws_witness :
    (deleteTilesForJob delDemoDB "arcgis" (fun _ => delDemoRect) 5 5).2
        = Except.error "ReferenceError: require is not defined" ∧
    hasTile (deleteTilesForJobBody delDemoDB "arcgis"
      (fun _ => delDemoRect) 5 5).1 5 10 10 "arcgis" = false :=
  have h := deleteRange_throws_with_intended_semantics delDemoDB "arcgis"
    5 delDemoRect
  ⟨h.2.1, h.2.2.2.2 delDemoRow1 (by decide) (by decide)⟩

/-! Scheduler counters, progress and cancellation. -/

unseal Rat.add Rat.mul Rat.inv Rat.sub in
/-- Claim C1, counterexample.  For an active job with totalTiles = 4,
downloadedCount = 1, failedCount = 0, skippedCount = 1, the scheduler's
getJobStatus reports round((1 + 0 + 1) / 4 * 100) = 50, not
round(100 * 1 / 4) = 25: the active-job progress counts skipped and
failed tiles, refuting the claimed formula. -/
theorem active_progress_counts_skips :
    downloaderProgress ⟨1, 0, 1⟩ 4 = 50 ∧ specProgress 1 4 = 25 ∧
    ¬downloaderProgress ⟨1, 0, 1⟩ 4 = specProgress 1 4 := by
  decide

/-- Claim C1, amended: the progress the scheduler's getJobStatus reports
for an active job equals round(100 * (downloaded + failed + skipped) /
totalTiles) (0 when totalTiles is 0) — the accounted fraction, not the
downloaded fraction — while the registry fallback TileForge.getJobStatus
uses once the job is inactive equals the claimed
round(100 * downloadedTiles / totalTiles) formula exactly, 0 when
totalTiles is 0. -/
theorem progress_formulas (st : DownloadStats) (d T : ℕ) :
    downloaderProgress st T
      = specProgress (st.downloadedCount + st.failedCount + st.skippedCount) T
    ∧ registryProgress d T = specProgress d T := by
  constructor
  · unfold downloaderProgress specProgress
    split
    · congr 1
      push_cast
      ring
    · rfl
  · unfold registryProgress specProgress
    split
    · congr 1
      ring
    · rfl

theorem queueTiles_go (hasTile0 : Tile → Bool) (tiles : List Tile)
    (st : DownloadStats) (q : List Tile) :
    tiles.foldl
      (fun (acc : DownloadStats × List Tile) t =>
        if hasTile0 t then (handleTileSkipped acc.1, acc.2)
        else (acc.1, acc.2 ++ [t]))
      (st, q)
      = (⟨st.downloadedCount, st.failedCount,
            st.skippedCount + tiles.countP hasTile0⟩,
          q ++ tiles.filter fun t => !hasTile0 t) := by
  induction tiles generalizing st q with
  | nil => simp
  | cons t ts ih =>
    by_cases h : hasTile0 t = true
    · rw [List.foldl_cons, if_pos h, ih]
      rw [List.countP_cons_of_pos _ _ h, List.filter_cons_of_neg (by simp [h])]
      simp only [handleTileSkipped, Prod.mk.injEq, DownloadStats.mk.injEq,
        eq_self_iff_true, true_and, and_true]
      omega
    · rw [List.foldl_cons, if_neg (by simp [h]), ih]
      rw [List.countP_cons_of_neg _ _ (by simp [h]),
        List.filter_cons_of_pos (by simp [h])]
      simp [List.append_assoc]

theorem queueTiles_spec (hasTile0 : Tile → Bool) (tiles : List Tile) :
    queueTiles hasTile0 tiles
      = (⟨0, 0, tiles.countP hasTile0⟩,
          tiles.filter fun t => !hasTile0 t) := by
  unfold queueTiles
  rw [queueTiles_go]
  simp

theorem runQueue_all_success (outcome : Tile → Bool) (st : DownloadStats)
    (q : List Tile) (hall : ∀ t ∈ q, outcome t = true) :
    runQueue outcome st q
      = ⟨st.downloadedCount + q.length, st.failedCount, st.skippedCount⟩ := by
  induction q generalizing st with
  | nil => simp [runQueue]
  | cons t ts ih =>
    have ht := hall t (List.mem_cons_self t ts)
    unfold runQueue
    rw [List.foldl_cons, if_pos ht]
    have := ih ⟨st.downloadedCount + 1, st.failedCount, st.skippedCount⟩
      (fun t' ht' => hall t' (List.mem_cons_of_mem t ht'))
    unfold runQueue at this
    rw [this]
    simp only [DownloadStats.mk.injEq, List.length_cons,
      eq_self_iff_true, true_and, and_true]
    omega

theorem countP_not_add {α : Type} (p : α → Bool) (l : List α) :
    l.countP (fun a => !p a) + l.countP p = l.length := by
  induction l with
  | nil => rfl
  | cons a l ih =>
    by_cases h : p a = true <;>
      simp [List.countP_cons, h] <;> omega

/-- Claim C3: starting a job over a tile list of which exactly the tiles
satisfying hasTile0 pre-exist in the store (K of the T tiles), then
draining the queue with every remaining fetch succeeding, ends with
downloaded = T - K, skipped = K, failed = 0, and completeJob writing the
terminal status completed to the registry row; and whenever at least one
tile failed the terminal status written is completed_with_errors
instead. -/
theorem skip_accounting :
    (∀ (hasTile0 outcome : Tile → Bool) (tiles : List Tile) (r : JobRecord)
      (now : ℕ),
      (∀ t ∈ (queueTiles hasTile0 tiles).2, outcome t = true) →
      (runQueue outcome (queueTiles hasTile0 tiles).1
          (queueTiles hasTile0 tiles).2).downloadedCount
          = tiles.length - tiles.countP hasTile0 ∧
      (runQueue outcome (queueTiles hasTile0 tiles).1
          (queueTiles hasTile0 tiles).2).skippedCount
          = tiles.countP hasTile0 ∧
      (runQueue outcome (queueTiles hasTile0 tiles).1
          (queueTiles hasTile0 tiles).2).failedCount = 0 ∧
      (completeJobRecord r
          (runQueue outcome (queueTiles hasTile0 tiles).1
            (queueTiles hasTile0 tiles).2) now).status = "completed") ∧
    (∀ (r : JobRecord) (st : DownloadStats) (now : ℕ),
      0 < st.failedCount →
      (completeJobRecord r st now).status = "completed_with_errors") := by
  constructor
  · intro hasTile0 outcome tiles r now hall
    rw [queueTiles_spec] at hall ⊢
    rw [runQueue_all_success outcome _ _ hall]
    refine ⟨?_, rfl, rfl, ?_⟩
    · have h1 := countP_not_add hasTile0 tiles
      have h2 := List.countP_eq_length_filter (fun t => !hasTile0 t) tiles
      simp only []
      omega
    · simp [completeJobRecord, updateJobStatus, updateJobProgress,
        completeJobStatus]
  · intro r st now h
    simp [completeJobRecord, updateJobStatus, updateJobProgress,
      completeJobStatus, h, Nat.pos_iff_ne_zero]

/-- Witness for the C3 theorem: three tiles of which one pre-exists, all
fetches succeed; downloaded = 3 - 1, and the terminal status is
completed. -/
theorem skip_accounting_witness :
    (runQueue (fun _ => true) (queueTiles demoHasTile demoTiles).1
        (queueTiles demoHasTile demoTiles).2).downloadedCount
      = demoTiles.length - demoTiles.countP demoHasTile ∧
    (completeJobRecord demoJobRecord
        (runQueue (fun _ => true) (queueTiles demoHasTile demoTiles).1
          (queueTiles demoHasTile demoTiles).2) 5).status = "completed" :=
  have h := skip_accounting.1 demoHasTile (fun _ => true) demoTiles
    demoJobRecord 5 (by decide)
  ⟨h.1, h.2.2.2⟩

theorem iterateDownloaded_invariant (now n : ℕ) (st : DownloadStats)
    (r : JobRecord)
    (hinv : r.downloadedTiles = 10 * (st.downloadedCount / 10)) :
    (iterateDownloaded now n (st, r)).1.downloadedCount
        = st.downloadedCount + n ∧
    (iterateDownloaded now n (st, r)).2.downloadedTiles
        = 10 * ((st.downloadedCount + n) / 10) := by
  induction n generalizing st r with
  | zero => exact ⟨rfl, hinv⟩
  | succ n ih =>
    have hstep : iterateDownloaded now (n + 1) (st, r)
        = iterateDownloaded now n (handleTileDownloaded st r now) := rfl
    rw [hstep]
    unfold handleTileDownloaded
    by_cases h : (st.downloadedCount + 1) % 10 = 0
    · rw [if_pos h]
      obtain ⟨hx1, hx2⟩ := ih { st with downloadedCount := st.downloadedCount + 1 }
        (updateJobProgress r (st.downloadedCount + 1) now)
        (by dsimp only; simp only [updateJobProgress]; omega)
      dsimp only at hx1 hx2
      exact ⟨by rw [hx1]; omega, by rw [hx2]; omega⟩
    · rw [if_neg h]
      obtain ⟨hx1, hx2⟩ := ih { st with downloadedCount := st.downloadedCount + 1 } r
        (by dsimp only; rw [hinv]; omega)
      dsimp only at hx1 hx2
      exact ⟨by rw [hx1]; omega, by rw [hx2]; omega⟩

/-- Claim C10: cancelling an active job succeeds and rewrites the job's
registry row through updateJobStatus alone — status becomes cancelled and
updatedAt the current time, every other field (downloadedTiles included)
is untouched, and rows of other jobs are untouched; and since progress is
persisted only on every 10th success with no flush on cancellation, after
n successful downloads the persisted downloadedTiles is 10 * (n / 10), up
to 9 below the live count. -/
theorem cancel_frame_and_coarse_progress :
    (∀ (s : SchedState) (jobId : String) (now : ℕ),
      (s.activeJobs.find? fun e => decide (e.1 = jobId)).isSome = true →
      (cancelJob s jobId now).1 = true ∧
      (∀ r ∈ s.registry, r.id = jobId →
        updateJobStatus r "cancelled" now
            ∈ (cancelJob s jobId now).2.registry ∧
        (updateJobStatus r "cancelled" now).downloadedTiles
            = r.downloadedTiles) ∧
      (∀ r ∈ s.registry, ¬r.id = jobId →
        r ∈ (cancelJob s jobId now).2.registry)) ∧
    (∀ (now n : ℕ) (st : DownloadStats) (r : JobRecord),
      st.downloadedCount = 0 → r.downloadedTiles = 0 →
      (iterateDownloaded now n (st, r)).1.downloadedCount = n ∧
      (iterateDownloaded now n (st, r)).2.downloadedTiles = 10 * (n / 10) ∧
      (iterateDownloaded now n (st, r)).1.downloadedCount
          - (iterateDownloaded now n (st, r)).2.downloadedTiles ≤ 9) := by
  constructor
  · intro s jobId now hactive
    unfold cancelJob
    rw [if_pos hactive]
    refine ⟨rfl, ?_, ?_⟩
    · intro r hr hid
      have hmem : (if r.id = jobId then updateJobStatus r "cancelled" now
          else r) ∈ registryUpdateStatus s.registry jobId "cancelled" now :=
        List.mem_map_of_mem _ hr
      rw [if_pos hid] at hmem
      exact ⟨hmem, rfl⟩
    · intro r hr hid
      have hmem : (if r.id = jobId then updateJobStatus r "cancelled" now
          else r) ∈ registryUpdateStatus s.registry jobId "cancelled" now :=
        List.mem_map_of_mem _ hr
      rw [if_neg hid] at hmem
      exact hmem
  · intro now n st r hst hr
    have h := iterateDownloaded_invariant now n st r (by omega)
    rw [hst] at h
    refine ⟨by rw [h.1]; omega, by rw [h.2]; congr 1; omega, ?_⟩
    rw [h.1, h.2]
    omega

/-- Witness for the C10 theorem: cancelling job1 in a concrete scheduler
state leaves its row present with only status/updatedAt rewritten, and 23
successes persist 20 downloaded tiles. -/
theorem cancel_frame_witness :
    updateJobStatus demoJobRecord "cancelled" 9
        ∈ (cancelJob cancelDemoSched "job1" 9).2.registry ∧
    (iterateDownloaded 9 23 (⟨0, 0, 0⟩, blankJobRecord)).2.downloadedTiles
        = 10 * (23 / 10) :=
  have ha := cancel_frame_and_coarse_progress.1 cancelDemoSched "job1" 9
    (by decide)
  have hb := cancel_frame_and_coarse_progress.2 9 23 ⟨0, 0, 0⟩
    blankJobRecord rfl rfl
  ⟨(ha.2.1 demoJobRecord (by decide) rfl).1, hb.2.1⟩

/-! The rate-limit gate. -/

/-- Claim C9, counterexample.  Running the gate model at
rateLimitMs = 500 over the overlapping schedule ends with the issue log
[600, 1200, 1200]: the two fetches that overlapped inside rateLimit()
each slept on its own delay computed from the same lastRequestTime and
stamped after waking without re-checking, issuing two requests 0 ms
apart. -/
theorem rateLimit_overlap_counterexample :
    (runGate 500 gateStart overlapSchedule).map GateState.log
        = some [600, 1200, 1200] ∧
    ((runGate 500 gateStart overlapSchedule).map fun s =>
        gapsRespect 500 s.log) = some false := by
  decide

theorem rateLimitIssueTime_ge (i l n : ℤ) :
    l + i ≤ rateLimitIssueTime i l n := by
  unfold rateLimitIssueTime
  split <;> omega

/-- Claim C9, amended: the minimum-interval gate is respected by
rateLimit executions that do not overlap — when each execution runs to
completion before the next begins, consecutive issue instants (starting
from any stamped lastRequestTime) are at least rateLimitMs apart; but
overlapping executions may issue closer together, even simultaneously,
because the sleep separates the timestamp read from the stamp and nothing
re-checks the gate after waking. -/
theorem rateLimit_sequential_spacing (minRequestInterval lastTime : ℤ)
    (nows : List ℤ) :
    gapsRespect minRequestInterval
      (lastTime :: seqIssueTimes minRequestInterval lastTime nows) = true := by
  induction nows generalizing lastTime with
  | nil => rfl
  | cons now rest ih =>
    show (decide (minRequestInterval ≤
        rateLimitIssueTime minRequestInterval lastTime now - lastTime) &&
      gapsRespect minRequestInterval
        (rateLimitIssueTime minRequestInterval lastTime now ::
          seqIssueTimes minRequestInterval
            (rateLimitIssueTime minRequestInterval lastTime now) rest)) = true
    rw [Bool.and_eq_true]
    exact ⟨decide_eq_true
        (by have := rateLimitIssueTime_ge minRequestInterval lastTime now
            omega),
      ih _⟩

/-! Facade validation. -/

/-- Claim C8: a download request with an unknown source, invalid bounds
or an invalid zoom range, and an extendJob request with an unknown job id
or an invalid zoom range, return the error synchronously and leave the
entire world (tile store, cache, queue, active jobs, stats, registry)
unchanged: all validation runs before any mutation. -/
theorem validation_preserves_state :
    (∀ (merc : ℚ → ℚ) (w : World) (jobId name source : String)
      (bounds : GeoBounds) (minZoom maxZoom now : ℕ),
      isValidSource source = false ∨ isValidBounds bounds = false ∨
        isValidZoomRange minZoom maxZoom = false →
      (download merc w jobId name source bounds minZoom maxZoom now).2 = w ∧
      ∃ e, (download merc w jobId name source bounds minZoom maxZoom now).1
        = Except.error e) ∧
    (∀ (merc : ℚ → ℚ) (w : World) (jobId : String) (minZoom maxZoom now : ℕ),
      registryFind w.sched.registry jobId = none ∨
        isValidZoomRange minZoom maxZoom = false →
      (extendJob merc w jobId minZoom maxZoom now).2 = w ∧
      ∃ e, (extendJob merc w jobId minZoom maxZoom now).1
        = Except.error e) := by
  constructor
  · intro merc w jobId name source bounds minZoom maxZoom now h
    unfold download
    split_ifs with h1 h2 h3
    · exact ⟨rfl, _, rfl⟩
    · exact ⟨rfl, _, rfl⟩
    · exact ⟨rfl, _, rfl⟩
    · exact absurd h (by simp [h1, h2, h3])
  · intro merc w jobId minZoom maxZoom now h
    rcases hfind : registryFind w.sched.registry jobId with _ | job
    · unfold extendJob
      rw [hfind]
      exact ⟨rfl, _, rfl⟩
    · have hz : isValidZoomRange minZoom maxZoom = false := by
        rcases h with h | h
        · rw [hfind] at h
          exact absurd h (by simp)
        · exact h
      unfold extendJob
      rw [hfind]
      dsimp only
      rw [if_pos hz]
      exact ⟨rfl, _, rfl⟩

/-- Witness for the C8 theorem: an unknown source and an unknown job id
against the empty world. -/
theorem validation_preserves_state_witness :
    (download mercHalf emptyWorld "j1" "demo" "nosuch" ⟨1, 0, 0, -1⟩
        1 2 0).2 = emptyWorld ∧
    (extendJob mercHalf emptyWorld "missing" 1 2 0).2 = emptyWorld :=
  ⟨(validation_preserves_state.1 mercHalf emptyWorld "j1" "demo" "nosuch"
      ⟨1, 0, 0, -1⟩ 1 2 0 (Or.inl (by decide))).1,
    (validation_preserves_state.2 mercHalf emptyWorld "missing" 1 2 0
      (Or.inl rfl)).1⟩

end TileForge
